import Mathlib

/-!
Verification of the flow-ingestion core (`inputProcess.py`) of the
Stratosphere Linux IPS input stage.

The Python source is shallowly embedded below.  File contents are modelled
as lists of pre-classified lines (`ZLine`): whether a raw line parses as
JSON, and the value of its `ts` field, is an attribute of the input text, so
the JSON decoder itself is not re-implemented; everything the Python module
does *after* `json.loads` returns or raises is translated faithfully.
Python dictionaries are modelled as insertion-ordered association lists
(`dset` updates in place or appends, exactly as CPython dicts behave), and
`multiprocessing.Queue.put` is modelled as enqueuing a snapshot of its
argument (the queue pickles the object when it is put).
-/

/-- `takeUntilChar c l` is the prefix of `l` before the first occurrence of
`c`: Python `s.split(c)[0]`. -/
def takeUntilChar (c : Char) : List Char → List Char
  | [] => []
  | a :: as => if a = c then [] else a :: takeUntilChar c as

/-- First comma/tab token of a string, as in Python `s.split(sep)[0]`. -/
def firstTok (sep : Char) (s : String) : String :=
  ⟨takeUntilChar sep s.toList⟩

/-- `headMatches p l` : `p` is an initial segment of `l`. -/
def headMatches : List Char → List Char → Bool
  | [], _ => true
  | _ :: _, [] => false
  | a :: as, b :: bs => a = b && headMatches as bs

/-- `occursIn p l` : `p` occurs contiguously inside `l`. -/
def occursIn (p : List Char) : List Char → Bool
  | [] => headMatches p []
  | b :: bs => headMatches p (b :: bs) || occursIn p bs

/-- Python's substring test `pat in s`. -/
def containsSub (pat s : String) : Bool :=
  occursIn pat.toList s.toList

/-- Python `path.split('/')[-1]` (the basename): the suffix of `path` after
its last `/`. -/
def basenameOf (path : String) : String :=
  ⟨(takeUntilChar '/' path.toList.reverse).reverse⟩

/-- A Python timestamp value as stored in `time_last_lines`: either a number
(JSON `ts` field, or the substituted `0` when the field is missing) or a
string (the first tab-token of a TSV line). -/
inductive PyVal where
  | num (q : ℚ)
  | str (s : String)
deriving DecidableEq

/-- Runtime kind of a timestamp value (`true` = numeric, `false` = string). -/
def kindOf : PyVal → Bool
  | .num _ => true
  | .str _ => false

/-- Result of a Python operation that can raise `TypeError`. -/
inductive PyRes (α : Type) where
  | ok (a : α)
  | typeError
deriving DecidableEq

/-- Python 3 `<` on timestamp values: defined within one kind, raises
`TypeError` (modelled as `.typeError`) between an `int`/`float` and a
`str`. -/
def pyLt : PyVal → PyVal → PyRes Bool
  | .num a, .num b => .ok (decide (a < b))
  | .str a, .str b => .ok (decide (a < b))
  | _, _ => .typeError

/-- Payload of a record: a parsed JSON object (characterised by whether it
had a `ts` field, the field's value, and the raw line) or a raw line. -/
inductive RData where
  | jsonD (hasTs : Bool) (ts : ℚ) (raw : String)
  | rawStr (s : String)
deriving DecidableEq

/-- The `{type, data}` dictionary sent to the profiler queue.  `type` is an
`Option` because the single-file branch of `run` can leave the `type` key
unset. -/
structure Record where
  type : Option String
  data : RData
deriving DecidableEq

/-- An item put on the profiler queue: a record, or the literal string
`"stop"`. -/
inductive QItem where
  | record (r : Record)
  | stopSentinel
deriving DecidableEq

/-- A line of a zeek log file, pre-classified by its JSON parse outcome:
`jsonLine hasTs ts raw` parses as JSON (with/without a numeric `ts` field),
`textLine raw` makes `json.loads` raise `JSONDecodeError`.  `readline`
returning `""` (end of file for now) is represented by the absence of a next
line. -/
inductive ZLine where
  | jsonLine (hasTs : Bool) (ts : ℚ) (raw : String)
  | textLine (raw : String)
deriving DecidableEq

/-- Lines 202-231 of `read_zeek_files`: classify one freshly read line.
JSON lines become a record with timestamp `ts` (or `0` when the field is
missing); non-JSON lines whose first character is `#` are dropped
(`continue`), an empty `nline` raises `IndexError` which is also dropped;
other text lines become a record with the first tab-token as timestamp. -/
def classifyLine (filename : String) : ZLine → Option (Record × PyVal)
  | .jsonLine hasTs ts raw =>
      some ({ type := some filename, data := .jsonD hasTs ts raw },
            if hasTs then .num ts else .num 0)
  | .textLine raw =>
      match raw.toList with
      | [] => none
      | c :: _ =>
          if c = '#' then none
          else some ({ type := some filename, data := .rawStr raw },
                     .str (firstTok '\t' raw))

/-- Lines 179-181: stems that are ignored because they carry no flow data. -/
def excludedName (f : String) : Bool :=
  containsSub "capture_loss" f || containsSub "loaded_scripts" f ||
  containsSub "packet_filter" f || containsSub "stats" f ||
  containsSub "weird" f || containsSub "reporter" f

/-- Dictionary lookup (`d[k]`, with `none` for `KeyError`). -/
def dget {α : Type} : List (String × α) → String → Option α
  | [], _ => none
  | (k, v) :: rest, key => if k = key then some v else dget rest key

/-- Dictionary assignment `d[k] = v`: update in place if present, else
append (CPython dict insertion-order semantics). -/
def dset {α : Type} : List (String × α) → String → α → List (String × α)
  | [], k, v => [(k, v)]
  | (k', v') :: rest, k, v =>
      if k' = k then (k, v) :: rest else (k', v') :: dset rest k v

/-- Dictionary deletion `del d[k]` (removes the entry with key `k`). -/
def ddel {α : Type} : List (String × α) → String → List (String × α)
  | [], _ => []
  | (k', v') :: rest, k => if k' = k then rest else (k', v') :: ddel rest k

/-- The mutable state of `read_zeek_files`: `opened` maps a stem to the read
position of its open handle (`open_file_handlers`), `timeLast` is
`time_last_lines`, `cache` is `cache_lines`, `lastUpd` is
`last_updated_file_time` in whole seconds. -/
structure TailState where
  opened : List (String × Nat)
  timeLast : List (String × PyVal)
  cache : List (String × Record)
  lastUpd : Nat
deriving DecidableEq

/-- State at entry of `read_zeek_files` (lines 161-166). -/
def initState : TailState :=
  { opened := [], timeLast := [], cache := [], lastUpd := 0 }

/-- Lines 187-237: with the handle open at `pos`, read and classify the next
line of `filename` unless a cached line is still waiting.  A successful read
advances the handle and updates `lastUpd` *before* classification; `readline`
returning `""` (no next line) changes nothing. -/
def readStep (env : String → List ZLine) (now : Nat) (st : TailState)
    (filename : String) (pos : Nat) : TailState :=
  if (dget st.cache filename).isSome then st
  else
    match (env filename).get? pos with
    | none => st
    | some zl =>
        let st2 : TailState :=
          { st with opened := dset st.opened filename (pos + 1), lastUpd := now }
        match classifyLine filename zl with
        | none => st2
        | some (r, ts) =>
            { st2 with timeLast := dset st2.timeLast filename ts,
                       cache := dset st2.cache filename r }

/-- Lines 170-237: one pass of the `for filename in zeek_files` body.  On
first encounter an excluded stem is skipped (`continue`) and any other stem
is opened at position 0. -/
def fillOne (env : String → List ZLine) (now : Nat) (st : TailState)
    (filename : String) : TailState :=
  match dget st.opened filename with
  | none =>
      if excludedName filename then st
      else
        readStep env now { st with opened := st.opened ++ [(filename, 0)] }
          filename 0
  | some pos => readStep env now st filename pos

/-- The whole `for filename in zeek_files` loop over one catalog snapshot. -/
def fillHeads (env : String → List ZLine) (now : Nat)
    (catalog : List String) (st : TailState) : TailState :=
  catalog.foldl (fillOne env now) st

/-- The running minimum of `sorted(time_last_lines, key=time_last_lines.get)`:
the head of a stable sort is the first entry attaining the minimal value.
Python's sort uses only `<` on the values, and a comparison between an
`int`/`float` and a `str` raises `TypeError` (`.error`). -/
def selectAux : String × PyVal → List (String × PyVal) →
    PyRes (String × PyVal)
  | best, [] => .ok best
  | best, p :: rest =>
      match pyLt p.2 best.2 with
      | .typeError => .typeError
      | .ok true => selectAux p rest
      | .ok false => selectAux best rest

/-- Lines 256-259: `sorted(time_last_lines, key=time_last_lines.get)[0]`,
with `.ok none` for the `IndexError` on an empty dict. -/
def selectKey : List (String × PyVal) → PyRes (Option (String × PyVal))
  | [] => .ok none
  | p :: rest =>
      match selectAux p rest with
      | .ok best => .ok (some best)
      | .typeError => .typeError

/-- Outcome of one iteration of the `while True` loop of
`read_zeek_files`. -/
inductive StepRes where
  | stopped (st : TailState)
  | emitted (r : Record) (st : TailState)
  | waited (st : TailState)
  | errored
deriving DecidableEq

/-- Lines 244-284: the part of a tailer-loop iteration after the fill pass,
on the filled state `st1`.  If no line is cached and nothing was read for
`timeout` seconds, `break` (`.stopped`); otherwise pick the stem with the
smallest buffered timestamp — a `TypeError` from the sort aborts the process
(`.errored`), an empty sort (`IndexError`) refreshes and sleeps (`.waited`) —
and send `cache_lines[key]` to the profiler queue, deleting both entries. -/
def loopBody (timeout now : Nat) (st1 : TailState) : StepRes :=
  if st1.cache = [] ∧ timeout ≤ now - st1.lastUpd then .stopped st1
  else
    match selectKey st1.timeLast with
    | .typeError => .errored
    | .ok none => .waited st1
    | .ok (some kts) =>
        match dget st1.cache kts.1 with
        | none => .errored
        | some r =>
            .emitted r { st1 with cache := ddel st1.cache kts.1,
                                  timeLast := ddel st1.timeLast kts.1 }

/-- Lines 168-284: one iteration of the `while True` loop of
`read_zeek_files`: run the fill pass over the catalog snapshot, then the
quiescence check and emission. -/
def loopStep (env : String → List ZLine) (timeout : Nat)
    (catalog : List String) (now : Nat) (st : TailState) : StepRes :=
  loopBody timeout now (fillHeads env now catalog st)

/-- A run of the tailer loop.  Each element of `trace` supplies the wall
clock and the catalog snapshot (`__database__.get_all_zeek_file()`) seen by
one iteration; the run returns the records sent to the profiler queue in
order, and whether the loop exited through its `break` (clean quiescence
termination). -/
def runTailer (env : String → List ZLine) (timeout : Nat) :
    List (Nat × List String) → TailState → List Record × Bool
  | [], _ => ([], false)
  | (now, cat) :: rest, st =>
      match loopStep env timeout cat now st with
      | .stopped _ => ([], true)
      | .emitted r st' =>
          let p := runTailer env timeout rest st'
          (r :: p.1, p.2)
      | .waited st' => runTailer env timeout rest st'
      | .errored => ([], false)

/-- Does a queue trace contain the terminal sentinel? -/
def hasStopSentinel : List QItem → Bool
  | [] => false
  | .stopSentinel :: _ => true
  | .record _ :: rest => hasStopSentinel rest

/-- `run`, folder-of-logs branch (lines 322-337 and 362): read the zeek
files, then put the literal `"stop"` on the profiler queue.  The
`put("stop")` at line 362 executes only when `read_zeek_files` *returns*
(the tailer loop exited through its `break`): on the exception path `run`
jumps to the generic handler and exits 1 without the sentinel, and an
unfinished run has not reached line 362 — in both cases the queue holds
only the records emitted so far. -/
def runFolderMode (env : String → List ZLine) (timeout : Nat)
    (trace : List (Nat × List String)) : List QItem :=
  if (runTailer env timeout trace initState).2 then
    ((runTailer env timeout trace initState).1.map QItem.record) ++
      [QItem.stopSentinel]
  else
    (runTailer env timeout trace initState).1.map QItem.record

/-- `run`, pcap/interface branch (lines 382-444): read the zeek files, stop
the observer and return — nothing else is put on the profiler queue.  The
boolean records whether `read_zeek_files` terminated cleanly. -/
def runPcapMode (env : String → List ZLine) (timeout : Nat)
    (trace : List (Nat × List String)) : List QItem × Bool :=
  let p := runTailer env timeout trace initState
  (p.1.map QItem.record, p.2)

/-- One `self.profilerqueue.put(line)` of the stdin / single-file readers:
the queue receives a snapshot of the current `{type, data}` dict. -/
def putLine (ty : Option String) (acc : List QItem) (l : String) : List QItem :=
  acc ++ [QItem.record { type := ty, data := .rawStr l }]

/-- `run`, stdin branch (lines 307-320 and 362): wrap every stdin line as a
`type: stdin` record, then put `"stop"`. -/
def runStdin (inputLines : List String) : List QItem :=
  inputLines.foldl (putLine (some "stdin")) [] ++ [QItem.stopSentinel]

/-- Lines 345-353: the record `type` and inter-line delay (in milliseconds:
`read_lines_delay = 0.02` seconds = 20 ms) chosen for a single flat file
from its basename.  Note that a basename containing none of `binetflow`,
`argus`, `log` leaves the `type` key unset. -/
def singleFileTypeDelay (path : String) : Option String × Nat :=
  if containsSub "binetflow" (basenameOf path) ||
      containsSub "argus" (basenameOf path) then (some "argus", 20)
  else if containsSub "log" (basenameOf path) then (some "zeek", 0)
  else (none, 0)

/-- `run`, single-file branch (lines 338-362): emit every line with the
inferred type, then put `"stop"`; also report the pacing delay (ms) used. -/
def runSingleFile (path : String) (content : List String) :
    List QItem × Nat :=
  ((content.foldl (putLine (singleFileTypeDelay path).1) []) ++
    [QItem.stopSentinel], (singleFileTypeDelay path).2)

/-- Outcome of one iteration of the `while True` loop of
`read_nfdump_file` (with the file already open). -/
inductive NfStep where
  | emit (r : Record) (pos lastUpd : Nat)
  | cont (pos lastUpd : Nat)
  | stop
deriving DecidableEq

/-- Python `file_handler.readline()`: the next line, or the empty string at
end of file.  Being a `str`, the result is never `None`. -/
def pyReadline (fileLines : List String) (pos : Nat) : Option String :=
  some ((fileLines.get? pos).getD "")

/-- Lines 114-153 of `read_nfdump_file`: one read attempt.  A non-empty line
whose first comma-token starts with a digit is sent (`{type: nfdump, data:
line}`, refreshing the activity clock); other non-empty lines are skipped.
An empty read falls into the `if nfdump_line is None:` test, which can never
hold for the `str` returned by `readline`, so the quiescence-timeout branch
is reachable only from the (impossible) `none` result. -/
def nfdumpStep (fileLines : List String) (timeout pos lastUpd now : Nat) :
    NfStep :=
  match pyReadline fileLines pos with
  | some nfdumpLine =>
      if nfdumpLine = "" then .cont pos lastUpd
      else
        match (firstTok ',' nfdumpLine).toList with
        | [] => .cont (pos + 1) lastUpd
        | c :: _ =>
            if c.isDigit then
              .emit { type := some "nfdump", data := .rawStr nfdumpLine }
                (pos + 1) now
            else .cont (pos + 1) lastUpd
  | none => if timeout ≤ now - lastUpd then .stop else .cont pos lastUpd

/-- Is the outcome the loop's `break`? -/
def isNfStop : NfStep → Bool
  | .stop => true
  | _ => false

/-- A run of the nfdump read loop over a clock trace, from read position and
activity-clock state `(pos, lastUpd)`: the queue items put, and whether the
loop ever exited through its `break`. -/
def runNfdump (fileLines : List String) (timeout : Nat) :
    List Nat → Nat × Nat → List QItem × Bool
  | [], _ => ([], false)
  | now :: rest, (pos, lastUpd) =>
      match nfdumpStep fileLines timeout pos lastUpd now with
      | .emit rcd p' l' =>
          let r := runNfdump fileLines timeout rest (p', l')
          (QItem.record rcd :: r.1, r.2)
      | .cont p' l' => runNfdump fileLines timeout rest (p', l')
      | .stop => ([], true)

/-! ### Facts about the Python comparison and the sort-head selection -/

theorem pyLt_self (a : PyVal) : pyLt a a = .ok false := by
  cases a <;> simp [pyLt, lt_irrefl]

theorem pyLt_kind {a b : PyVal} {v : Bool} (h : pyLt a b = .ok v) :
    kindOf a = kindOf b := by
  cases a <;> cases b <;> simp_all [pyLt, kindOf]

theorem pyLt_resolve {a b : PyVal} (hk : kindOf a = kindOf b)
    (h : pyLt a b ≠ .ok true) : pyLt a b = .ok false := by
  cases a <;> cases b <;> simp_all [pyLt, kindOf]

theorem pyLt_tt_trans {a b c : PyVal} (h1 : pyLt a b = .ok true)
    (h2 : pyLt b c = .ok true) : pyLt a c = .ok true := by
  cases a with
  | num x =>
      cases b with
      | num y =>
          cases c with
          | num z =>
              simp only [pyLt, PyRes.ok.injEq, decide_eq_true_eq] at h1 h2 ⊢
              exact lt_trans h1 h2
          | str z => simp [pyLt] at h2
      | str y => simp [pyLt] at h1
  | str x =>
      cases b with
      | num y => simp [pyLt] at h1
      | str y =>
          cases c with
          | num z => simp [pyLt] at h2
          | str z =>
              simp only [pyLt, PyRes.ok.injEq, decide_eq_true_eq] at h1 h2 ⊢
              exact lt_trans h1 h2

theorem pyLt_ff_trans {a b c : PyVal} (h1 : pyLt a b = .ok false)
    (h2 : pyLt b c = .ok false) : pyLt a c = .ok false := by
  cases a with
  | num x =>
      cases b with
      | num y =>
          cases c with
          | num z =>
              simp only [pyLt, PyRes.ok.injEq, decide_eq_false_iff_not] at h1 h2 ⊢
              exact fun hlt => h2 (lt_of_le_of_lt (not_lt.1 h1) hlt)
          | str z => simp [pyLt] at h2
      | str y => simp [pyLt] at h1
  | str x =>
      cases b with
      | num y => simp [pyLt] at h1
      | str y =>
          cases c with
          | num z => simp [pyLt] at h2
          | str z =>
              simp only [pyLt, PyRes.ok.injEq, decide_eq_false_iff_not] at h1 h2 ⊢
              exact fun hlt => h2 (lt_of_le_of_lt (not_lt.1 h1) hlt)

theorem selectAux_kind :
    ∀ (l : List (String × PyVal)) (best res : String × PyVal),
      selectAux best l = .ok res → kindOf res.2 = kindOf best.2 := by
  intro l
  induction l with
  | nil =>
      intro best res h
      simp only [selectAux, PyRes.ok.injEq] at h
      rw [← h]
  | cons p rest ih =>
      intro best res h
      unfold selectAux at h
      cases hc : pyLt p.2 best.2 with
      | typeError => rw [hc] at h; exact absurd h (by simp)
      | ok v =>
          rw [hc] at h
          cases v with
          | true => exact (ih p res h).trans (pyLt_kind hc)
          | false => exact ih best res h

theorem selectAux_mem :
    ∀ (l : List (String × PyVal)) (best res : String × PyVal),
      selectAux best l = .ok res → res = best ∨ res ∈ l := by
  intro l
  induction l with
  | nil =>
      intro best res h
      simp only [selectAux, PyRes.ok.injEq] at h
      exact Or.inl h.symm
  | cons p rest ih =>
      intro best res h
      unfold selectAux at h
      cases hc : pyLt p.2 best.2 with
      | typeError => rw [hc] at h; exact absurd h (by simp)
      | ok v =>
          rw [hc] at h
          cases v with
          | true =>
              rcases ih p res h with h' | h'
              · exact Or.inr (by simp [h'])
              · exact Or.inr (List.mem_cons_of_mem _ h')
          | false =>
              rcases ih best res h with h' | h'
              · exact Or.inl h'
              · exact Or.inr (List.mem_cons_of_mem _ h')

theorem selectAux_min :
    ∀ (l : List (String × PyVal)) (best res : String × PyVal),
      selectAux best l = .ok res →
      pyLt best.2 res.2 ≠ .ok true ∧ ∀ q ∈ l, pyLt q.2 res.2 ≠ .ok true := by
  intro l
  induction l with
  | nil =>
      intro best res h
      simp only [selectAux, PyRes.ok.injEq] at h
      subst h
      exact ⟨by simp [pyLt_self], by simp⟩
  | cons p rest ih =>
      intro best res h
      unfold selectAux at h
      cases hc : pyLt p.2 best.2 with
      | typeError => rw [hc] at h; exact absurd h (by simp)
      | ok v =>
          rw [hc] at h
          cases v with
          | true =>
              obtain ⟨h1, h2⟩ := ih p res h
              have hbest : pyLt best.2 res.2 ≠ .ok true := by
                intro hb
                exact h1 (pyLt_tt_trans hc hb)
              refine ⟨hbest, ?_⟩
              intro q hq
              rcases List.mem_cons.1 hq with rfl | hq'
              · exact h1
              · exact h2 q hq'
          | false =>
              obtain ⟨h1, h2⟩ := ih best res h
              have hkbr : kindOf best.2 = kindOf res.2 :=
                (selectAux_kind rest best res h).symm
              have hbr : pyLt best.2 res.2 = .ok false := pyLt_resolve hkbr h1
              refine ⟨h1, ?_⟩
              intro q hq
              rcases List.mem_cons.1 hq with rfl | hq'
              · rw [pyLt_ff_trans hc hbr]; simp
              · exact h2 q hq'

/-- The head of the stable sort of `time_last_lines` is an entry of the dict
whose timestamp no other buffered timestamp is strictly below. -/
theorem selectKey_min {l : List (String × PyVal)} {kts : String × PyVal}
    (h : selectKey l = .ok (some kts)) :
    kts ∈ l ∧ ∀ q ∈ l, pyLt q.2 kts.2 ≠ .ok true := by
  cases l with
  | nil => simp [selectKey] at h
  | cons p rest =>
      simp only [selectKey] at h
      cases hs : selectAux p rest with
      | typeError => rw [hs] at h; exact absurd h (by simp)
      | ok best =>
          rw [hs] at h
          simp only [PyRes.ok.injEq, Option.some.injEq] at h
          subst h
          obtain ⟨h1, h2⟩ := selectAux_min rest p best hs
          refine ⟨?_, ?_⟩
          · rcases selectAux_mem rest p best hs with h' | h'
            · simp [h']
            · exact List.mem_cons_of_mem _ h'
          · intro q hq
            rcases List.mem_cons.1 hq with rfl | hq'
            · exact h1
            · exact h2 q hq'


/-! ### Inversion of one tailer-loop iteration -/

theorem loopBody_emitted_inv {timeout now : Nat} {st1 : TailState}
    {r : Record} {st' : TailState}
    (h : loopBody timeout now st1 = .emitted r st') :
    ∃ kts, selectKey st1.timeLast = .ok (some kts) ∧
      dget st1.cache kts.1 = some r ∧
      st' = { st1 with cache := ddel st1.cache kts.1,
                       timeLast := ddel st1.timeLast kts.1 } := by
  unfold loopBody at h
  split at h
  · exact absurd h (by simp)
  · split at h
    · exact absurd h (by simp)
    · exact absurd h (by simp)
    · rename_i kts hsel
      split at h
      · exact absurd h (by simp)
      · rename_i r0 hg
        simp only [StepRes.emitted.injEq] at h
        refine ⟨kts, hsel, ?_, ?_⟩
        · rw [hg, h.1]
        · rw [← h.2]

theorem loopStep_emitted_inv {env : String → List ZLine} {timeout : Nat}
    {catalog : List String} {now : Nat} {st : TailState} {r : Record}
    {st' : TailState}
    (h : loopStep env timeout catalog now st = .emitted r st') :
    ∃ kts, selectKey (fillHeads env now catalog st).timeLast = .ok (some kts) ∧
      dget (fillHeads env now catalog st).cache kts.1 = some r ∧
      st' = { fillHeads env now catalog st with
                cache := ddel (fillHeads env now catalog st).cache kts.1,
                timeLast := ddel (fillHeads env now catalog st).timeLast kts.1 } :=
  loopBody_emitted_inv h

theorem loopBody_waited_inv {timeout now : Nat} {st1 st' : TailState}
    (h : loopBody timeout now st1 = .waited st') : st' = st1 := by
  unfold loopBody at h
  split at h
  · exact absurd h (by simp)
  · split at h
    · exact absurd h (by simp)
    · simp only [StepRes.waited.injEq] at h
      rw [← h]
    · split at h
      · exact absurd h (by simp)
      · exact absurd h (by simp)

theorem loopStep_waited_inv {env : String → List ZLine} {timeout : Nat}
    {catalog : List String} {now : Nat} {st st' : TailState}
    (h : loopStep env timeout catalog now st = .waited st') :
    st' = fillHeads env now catalog st :=
  loopBody_waited_inv h

/-! ### Association-list facts -/

theorem dget_mem {α : Type} {d : List (String × α)} {k : String} {v : α}
    (h : dget d k = some v) : (k, v) ∈ d := by
  induction d with
  | nil => simp [dget] at h
  | cons p rest ih =>
      obtain ⟨k', v'⟩ := p
      by_cases hk : k' = k
      · subst hk
        simp [dget] at h
        subst h
        exact List.mem_cons_self _ _
      · simp only [dget, if_neg hk] at h
        exact List.mem_cons_of_mem _ (ih h)

theorem mem_dset {α : Type} {d : List (String × α)} {k : String} {v : α}
    {q : String × α} (h : q ∈ dset d k v) : q = (k, v) ∨ q ∈ d := by
  induction d with
  | nil => simp [dset] at h; exact Or.inl h
  | cons p rest ih =>
      obtain ⟨k', v'⟩ := p
      by_cases hk : k' = k
      · rw [dset, if_pos hk] at h
        rcases List.mem_cons.1 h with rfl | h'
        · exact Or.inl rfl
        · exact Or.inr (List.mem_cons_of_mem _ h')
      · rw [dset, if_neg hk] at h
        rcases List.mem_cons.1 h with rfl | h'
        · exact Or.inr (List.mem_cons_self _ _)
        · rcases ih h' with h'' | h''
          · exact Or.inl h''
          · exact Or.inr (List.mem_cons_of_mem _ h'')

theorem mem_ddel {α : Type} {d : List (String × α)} {k : String}
    {q : String × α} (h : q ∈ ddel d k) : q ∈ d := by
  induction d with
  | nil => simp [ddel] at h
  | cons p rest ih =>
      obtain ⟨k', v'⟩ := p
      by_cases hk : k' = k
      · rw [ddel, if_pos hk] at h
        exact List.mem_cons_of_mem _ h
      · rw [ddel, if_neg hk] at h
        rcases List.mem_cons.1 h with rfl | h'
        · exact List.mem_cons_self _ _
        · exact List.mem_cons_of_mem _ (ih h')

/-- Records built by `classifyLine` carry their source stem as `type`. -/
theorem classifyLine_type {fn : String} {zl : ZLine} {r : Record} {ts : PyVal}
    (h : classifyLine fn zl = some (r, ts)) : r.type = some fn := by
  cases zl with
  | jsonLine hTs t raw =>
      simp only [classifyLine, Option.some.injEq, Prod.mk.injEq] at h
      rw [← h.1]
  | textLine raw =>
      simp only [classifyLine] at h
      split at h
      · exact absurd h (by simp)
      · split at h
        · exact absurd h (by simp)
        · simp only [Option.some.injEq, Prod.mk.injEq] at h
          rw [← h.1]

/-! ### The exclusion-filter invariant -/

/-- Invariant of the tailer state: no excluded stem has ever been opened or
cached, and every cached record is tagged with its own stem. -/
def goodState (st : TailState) : Prop :=
  (∀ p ∈ st.opened, excludedName p.1 = false) ∧
  (∀ p ∈ st.cache, excludedName p.1 = false ∧ p.2.type = some p.1)

theorem readStep_good {env : String → List ZLine} {now : Nat} {st : TailState}
    {fn : String} {pos : Nat} (hg : goodState st)
    (hfn : excludedName fn = false) : goodState (readStep env now st fn pos) := by
  unfold readStep
  split
  · exact hg
  · split
    · exact hg
    · rename_i zl hget
      split
      · refine ⟨?_, hg.2⟩
        intro p hp
        rcases mem_dset hp with rfl | hp'
        · exact hfn
        · exact hg.1 p hp'
      · rename_i r ts hcl
        refine ⟨?_, ?_⟩
        · intro p hp
          rcases mem_dset hp with rfl | hp'
          · exact hfn
          · exact hg.1 p hp'
        · intro p hp
          rcases mem_dset hp with rfl | hp'
          · exact ⟨hfn, classifyLine_type hcl⟩
          · exact hg.2 p hp'

theorem fillOne_good {env : String → List ZLine} {now : Nat} {st : TailState}
    {fn : String} (hg : goodState st) : goodState (fillOne env now st fn) := by
  unfold fillOne
  split
  · rename_i hop
    split
    · exact hg
    · rename_i hex
      have hfn : excludedName fn = false := by
        cases hx : excludedName fn
        · rfl
        · exact absurd hx hex
      refine readStep_good ⟨?_, hg.2⟩ hfn
      intro p hp
      rcases List.mem_append.1 hp with hp' | hp'
      · exact hg.1 p hp'
      · rcases List.mem_singleton.1 hp' with rfl
        exact hfn
  · rename_i pos hop
    exact readStep_good hg (hg.1 (fn, pos) (dget_mem hop))

theorem fillHeads_good {env : String → List ZLine} {now : Nat}
    {catalog : List String} {st : TailState} (hg : goodState st) :
    goodState (fillHeads env now catalog st) := by
  induction catalog generalizing st with
  | nil => exact hg
  | cons fn rest ih => exact ih (fillOne_good hg)

theorem runTailer_good {env : String → List ZLine} {timeout : Nat} :
    ∀ (trace : List (Nat × List String)) (st : TailState), goodState st →
      ∀ r ∈ (runTailer env timeout trace st).1, ∀ f : String,
        r.type = some f → excludedName f = false := by
  intro trace
  induction trace with
  | nil => intro st hg r hr; simp [runTailer] at hr
  | cons nc rest ih =>
      obtain ⟨now, cat⟩ := nc
      intro st hg r hr f hf
      rw [runTailer] at hr
      cases hstep : loopStep env timeout cat now st with
      | stopped st1 => rw [hstep] at hr; simp at hr
      | errored => rw [hstep] at hr; simp at hr
      | waited st' =>
          rw [hstep] at hr
          have hst' : goodState st' := by
            rw [loopStep_waited_inv hstep]; exact fillHeads_good hg
          exact ih st' hst' r hr f hf
      | emitted r0 st' =>
          rw [hstep] at hr
          obtain ⟨kts, hsel, hget, hst'⟩ := loopStep_emitted_inv hstep
          have hg1 : goodState (fillHeads env now cat st) := fillHeads_good hg
          have hst'g : goodState st' := by
            rw [hst']
            exact ⟨hg1.1, fun p hp => hg1.2 p (mem_ddel hp)⟩
          simp only [List.mem_cons] at hr
          rcases hr with rfl | hr'
          · have hpair := hg1.2 (kts.1, r) (dget_mem hget)
            have htype : r.type = some kts.1 := hpair.2
            rw [htype] at hf
            cases hf
            exact hpair.1
          · exact ih st' hst'g r hr' f hf

/-! ### Queue-shape helpers -/

theorem hasStop_map_record (rs : List Record) :
    hasStopSentinel (rs.map QItem.record) = false := by
  induction rs with
  | nil => rfl
  | cons r rest ih => simpa [hasStopSentinel] using ih

theorem runNfdump_no_stop (fileLines : List String) (timeout : Nat) :
    ∀ (clk : List Nat) (st0 : Nat × Nat),
      hasStopSentinel (runNfdump fileLines timeout clk st0).1 = false := by
  intro clk
  induction clk with
  | nil => intro st0; rfl
  | cons now rest ih =>
      intro st0
      obtain ⟨pos, lastUpd⟩ := st0
      rw [runNfdump]
      cases hstep : nfdumpStep fileLines timeout pos lastUpd now with
      | emit rcd p' l' => simpa [hasStopSentinel] using ih (p', l')
      | cont p' l' => exact ih (p', l')
      | stop => rfl

theorem foldl_putLine_mem (ty : Option String) :
    ∀ (content : List String) (acc : List QItem) (q : QItem),
      q ∈ content.foldl (putLine ty) acc →
      q ∈ acc ∨ ∃ s, q = QItem.record { type := ty, data := .rawStr s } := by
  intro content
  induction content with
  | nil => intro acc q h; exact Or.inl h
  | cons l rest ih =>
      intro acc q h
      rcases ih (putLine ty acc l) q h with h' | h'
      · unfold putLine at h'
        rcases List.mem_append.1 h' with h'' | h''
        · exact Or.inl h''
        · rcases List.mem_singleton.1 h'' with rfl
          exact Or.inr ⟨l, rfl⟩
      · exact Or.inr h'

theorem selectAux_first :
    ∀ (rest : List (String × PyVal)) (best : String × PyVal),
      (∀ q ∈ rest, pyLt q.2 best.2 = .ok false) →
      selectAux best rest = .ok best := by
  intro rest
  induction rest with
  | nil => intro best _; rfl
  | cons p rest' ih =>
      intro best h
      unfold selectAux
      rw [h p (List.mem_cons_self _ _)]
      exact ih best (fun q hq => h q (List.mem_cons_of_mem _ hq))

/-! ### Claim C1 -/

/-- C1 counterexample: in pcap/interface mode the tailer can terminate
cleanly (quiescence `break`, `run` returns `True`), yet the literal string
`"stop"` is never put on the profiler queue, contradicting the claim that
every input mode enqueues the terminal sentinel on clean termination. -/
theorem c1_pcap_clean_exit_without_sentinel :
    (runPcapMode (fun _ => []) 30 [(30, [])]).2 = true ∧
    hasStopSentinel (runPcapMode (fun _ => []) 30 [(30, [])]).1 = false := by
  decide

/-- C1 amended: only the `file`-mode variants (stdin, single flat file,
folder of logs) enqueue the terminal sentinel `"stop"` after the last
record, and only on clean termination — in the folder branch the sentinel is
enqueued exactly when the tailer loop exited through its quiescence `break`
(an aborted or unfinished run puts no sentinel); the pcap/interface branch
and the nfdump branch never enqueue it on any path. -/
theorem c1_sentinel_only_in_file_mode
    (ls : List String) (path : String) (content : List String)
    (env envP : String → List ZLine) (t tP tN : Nat)
    (tr trP : List (Nat × List String)) (fileLines : List String)
    (clk : List Nat) (st0 : Nat × Nat) :
    (runStdin ls).getLast? = some QItem.stopSentinel ∧
    (runSingleFile path content).1.getLast? = some QItem.stopSentinel ∧
    ((runTailer env t tr initState).2 = true →
      (runFolderMode env t tr).getLast? = some QItem.stopSentinel) ∧
    ((runTailer env t tr initState).2 = false →
      hasStopSentinel (runFolderMode env t tr) = false) ∧
    hasStopSentinel (runPcapMode envP tP trP).1 = false ∧
    hasStopSentinel (runNfdump fileLines tN clk st0).1 = false := by
  refine ⟨?_, ?_, ?_, ?_, ?_, ?_⟩
  · simp only [runStdin]
    exact List.getLast?_concat _
  · simp only [runSingleFile]
    exact List.getLast?_concat _
  · intro hclean
    simp only [runFolderMode, hclean, if_true]
    exact List.getLast?_concat _
  · intro habort
    simp only [runFolderMode, habort, Bool.false_eq_true, if_false]
    exact hasStop_map_record _
  · simp only [runPcapMode]
    exact hasStop_map_record _
  · exact runNfdump_no_stop fileLines tN clk st0

/-- C1 amended, witness at concrete inputs: a folder run that reaches
quiescence ends in the sentinel, an unfinished folder run carries none, and
the pcap and nfdump queues never do. -/
theorem c1_sentinel_only_in_file_mode_witness :
    (runStdin []).getLast? = some QItem.stopSentinel ∧
    (runSingleFile "f.log" []).1.getLast? = some QItem.stopSentinel ∧
    (runTailer (fun _ => []) 1 [(5, [])] initState).2 = true ∧
    (runFolderMode (fun _ => []) 1 [(5, [])]).getLast? =
      some QItem.stopSentinel ∧
    (runTailer (fun _ => []) 1 [] initState).2 = false ∧
    hasStopSentinel (runFolderMode (fun _ => []) 1 []) = false ∧
    hasStopSentinel (runPcapMode (fun _ => []) 30 []).1 = false ∧
    hasStopSentinel (runNfdump [] 10 [] (0, 0)).1 = false :=
  ⟨(c1_sentinel_only_in_file_mode [] "f.log" [] (fun _ => []) (fun _ => [])
      1 30 10 [] [] [] [] (0, 0)).1,
   (c1_sentinel_only_in_file_mode [] "f.log" [] (fun _ => []) (fun _ => [])
      1 30 10 [] [] [] [] (0, 0)).2.1,
   by decide,
   (c1_sentinel_only_in_file_mode [] "f.log" [] (fun _ => []) (fun _ => [])
      1 30 10 [(5, [])] [] [] [] (0, 0)).2.2.1 (by decide),
   by decide,
   (c1_sentinel_only_in_file_mode [] "f.log" [] (fun _ => []) (fun _ => [])
      1 30 10 [] [] [] [] (0, 0)).2.2.2.1 (by decide),
   (c1_sentinel_only_in_file_mode [] "f.log" [] (fun _ => []) (fun _ => [])
      1 30 10 [] [] [] [] (0, 0)).2.2.2.2.1,
   (c1_sentinel_only_in_file_mode [] "f.log" [] (fun _ => []) (fun _ => [])
      1 30 10 [] [] [] [] (0, 0)).2.2.2.2.2⟩

/-! ### Claim C2 -/

/-- C2: at every emission step of the multi-file tailer, assuming all
buffered timestamps are pairwise comparable, the record pushed to the
profiler queue is the buffered head (`cache_lines[k]`) whose timestamp is
minimal among all currently buffered timestamps: no buffered timestamp is
strictly below it under the Python comparison. -/
theorem c2_emitted_head_has_minimal_timestamp
    (env : String → List ZLine) (timeout : Nat) (catalog : List String)
    (now : Nat) (st : TailState) (r : Record) (st' : TailState)
    (_hcomp : ∀ p ∈ (fillHeads env now catalog st).timeLast,
      ∀ q ∈ (fillHeads env now catalog st).timeLast, pyLt p.2 q.2 ≠ .typeError)
    (h : loopStep env timeout catalog now st = .emitted r st') :
    ∃ k ts, dget (fillHeads env now catalog st).cache k = some r ∧
      (k, ts) ∈ (fillHeads env now catalog st).timeLast ∧
      ∀ q ∈ (fillHeads env now catalog st).timeLast,
        pyLt q.2 ts ≠ .ok true := by
  obtain ⟨kts, hsel, hget, _⟩ := loopStep_emitted_inv h
  obtain ⟨hmem, hmin⟩ := selectKey_min hsel
  exact ⟨kts.1, kts.2, hget, hmem, hmin⟩

/-- Environment for the C2 witness (no file ever yields a line). -/
def c2wEnv : String → List ZLine := fun _ => []

/-- The single record buffered in the C2 witness state. -/
def c2wRec : Record := { type := some "a", data := .jsonD true 3 "x" }

/-- C2 witness state: one head buffered for stem `a` with timestamp 3. -/
def c2wSt : TailState :=
  { opened := [("a", 1)], timeLast := [("a", PyVal.num 3)],
    cache := [("a", c2wRec)], lastUpd := 0 }

/-- C2, witness: a concrete emission step on `c2wSt`. -/
theorem c2_emitted_head_has_minimal_timestamp_witness :
    ∃ k ts, dget (fillHeads c2wEnv 0 [] c2wSt).cache k = some c2wRec ∧
      (k, ts) ∈ (fillHeads c2wEnv 0 [] c2wSt).timeLast ∧
      ∀ q ∈ (fillHeads c2wEnv 0 [] c2wSt).timeLast,
        pyLt q.2 ts ≠ .ok true :=
  c2_emitted_head_has_minimal_timestamp c2wEnv 100 [] 0 c2wSt c2wRec
    { opened := [("a", 1)], timeLast := [], cache := [], lastUpd := 0 }
    (by decide) (by decide)

/-! ### Claim C3 -/

/-- Environment for the C3 counterexample: stems `a` and `b` each hold one
JSON line with timestamp 7. -/
def tieEnv : String → List ZLine :=
  fun f => if f = "b" then [ZLine.jsonLine true 7 "rb"]
           else if f = "a" then [ZLine.jsonLine true 7 "ra"] else []

/-- C3 counterexample: `a` and `b` each buffer one record with timestamp 7
(both heads are buffered after the first fill pass), but when the catalog
enumerates `b` before `a`, the record from `b` is emitted first — the tie is
not broken by lexicographic file stem. -/
theorem c3_tie_not_broken_lexicographically :
    (runTailer tieEnv 10 [(0, ["b", "a"]), (0, ["b", "a"])] initState).1 =
      [{ type := some "b", data := RData.jsonD true 7 "rb" },
       { type := some "a", data := RData.jsonD true 7 "ra" }] := by
  decide

/-- C3 amended: ties between equal buffered timestamps are broken by the
insertion order of `time_last_lines` (the order in which the heads were
buffered, which follows the catalog enumeration order), not by the
lexicographic order of the stems: the first entry whose timestamp no later
entry strictly undercuts is selected. -/
theorem c3_tie_broken_by_buffer_order (k : String) (ts : PyVal)
    (rest : List (String × PyVal))
    (h : ∀ q ∈ rest, pyLt q.2 ts = .ok false) :
    selectKey ((k, ts) :: rest) = .ok (some (k, ts)) := by
  have hfirst := selectAux_first rest (k, ts) h
  simp [selectKey, hfirst]

/-- C3 amended, witness: with `a` inserted first, `a` wins the ts-7 tie. -/
theorem c3_tie_broken_by_buffer_order_witness :
    selectKey [("a", PyVal.num 7), ("b", PyVal.num 7)] =
      .ok (some ("a", PyVal.num 7)) :=
  c3_tie_broken_by_buffer_order "a" (PyVal.num 7) [("b", PyVal.num 7)]
    (by decide)

/-! ### Claim C4 -/

/-- C4: when one buffered head carries the numeric timestamp 0 (JSON line
with no `ts` field) and another carries a textual TSV timestamp, the sort at
the emission step raises `TypeError` (the comparison is not total), and the
tailer iteration aborts instead of emitting the timestamp-0 record first. -/
theorem c4_mixed_timestamp_comparison_raises :
    selectKey [("x", PyVal.num 0), ("y", PyVal.str "7")] = .typeError ∧
    loopBody 10 0
      { opened := [("x", 1), ("y", 1)],
        timeLast := [("x", PyVal.num 0), ("y", PyVal.str "7")],
        cache := [("x", { type := some "x", data := RData.jsonD false 0 "o" }),
                  ("y", { type := some "y", data := RData.rawStr "7\tfoo\n" })],
        lastUpd := 0 } = .errored := by
  decide

/-! ### Claim C5 -/

/-- C5: an iteration of the multi-file tailer loop exits through its `break`
(normal termination) exactly when, after the fill pass, no file has a
buffered head (`cache_lines` empty) and at least `timeout` seconds have
passed since the last successful read; in particular the loop never exits
normally while a buffered head remains unemitted. -/
theorem c5_tailer_stops_iff_quiescent (env : String → List ZLine)
    (timeout : Nat) (catalog : List String) (now : Nat) (st : TailState) :
    loopStep env timeout catalog now st
      = .stopped (fillHeads env now catalog st) ↔
    ((fillHeads env now catalog st).cache = [] ∧
      timeout ≤ now - (fillHeads env now catalog st).lastUpd) := by
  unfold loopStep loopBody
  constructor
  · intro h
    by_cases hc : (fillHeads env now catalog st).cache = [] ∧
        timeout ≤ now - (fillHeads env now catalog st).lastUpd
    · exact hc
    · rw [if_neg hc] at h
      exfalso
      split at h
      · simp at h
      · simp at h
      · split at h
        · simp at h
        · simp at h
  · intro hc
    rw [if_pos hc]

/-- C5, witness: a quiescent state makes the loop stop. -/
theorem c5_tailer_stops_iff_quiescent_witness :
    loopStep (fun _ => []) 1 [] 5 initState
      = .stopped (fillHeads (fun _ => []) 5 [] initState) :=
  (c5_tailer_stops_iff_quiescent (fun _ => []) 1 [] 5 initState).mpr
    (by decide)

/-! ### Claim C6 -/

/-- C6: the nfdump read loop can never exit through its `break`: the
quiescence test is guarded by `if nfdump_line is None:`, but `readline`
returns the empty string (never `None`) at end of file, so no amount of idle
time terminates the reader — the claimed 10-second quiescence termination
does not happen. -/
theorem c6_nfdump_reader_never_stops (fileLines : List String)
    (timeout pos lastUpd now : Nat) :
    isNfStop (nfdumpStep fileLines timeout pos lastUpd now) = false := by
  simp only [nfdumpStep, pyReadline]
  split
  · rfl
  · split
    · rfl
    · split
      · rfl
      · rfl

/-- C6, witness: an idle reader at end of file, 99 seconds past the last
activity with a 10-second timeout, still does not stop. -/
theorem c6_nfdump_reader_never_stops_witness :
    isNfStop (nfdumpStep [] 10 0 0 99) = false :=
  c6_nfdump_reader_never_stops [] 10 0 0 99

/-! ### Claim C7 -/

/-- C7: over any run of the multi-file tailer from its initial state, no
emitted record carries a stem containing any of the excluded substrings
(`capture_loss`, `loaded_scripts`, `packet_filter`, `stats`, `weird`,
`reporter`), whatever stems the catalog offers. -/
theorem c7_excluded_stems_never_emitted (env : String → List ZLine)
    (timeout : Nat) (trace : List (Nat × List String)) :
    ∀ r ∈ (runTailer env timeout trace initState).1, ∀ f : String,
      r.type = some f → excludedName f = false :=
  runTailer_good trace initState
    ⟨fun p hp => by simp [initState] at hp,
     fun p hp => by simp [initState] at hp⟩

/-- Environment for the C7 witness: stem `a` holds one JSON line. -/
def c7wEnv : String → List ZLine :=
  fun f => if f = "a" then [ZLine.jsonLine true 3 "x"] else []

/-- C7, witness: a concrete run emits a record from stem `a`, and the
theorem yields that `a` is not excluded. -/
theorem c7_excluded_stems_never_emitted_witness : excludedName "a" = false :=
  c7_excluded_stems_never_emitted c7wEnv 10 [(0, ["a"])]
    { type := some "a", data := .jsonD true 3 "x" } (by decide) "a" rfl

/-! ### Claim C8 -/

/-- C8 counterexample: for a single flat file whose basename contains none
of `binetflow`, `argus`, `log` (here `flows.txt`), the emitted record has no
`type` key at all — not the claimed type `zeek`. -/
theorem c8_unknown_basename_gets_no_type :
    (runSingleFile "flows.txt" ["data\n"]).1 =
      [QItem.record { type := none, data := RData.rawStr "data\n" },
       QItem.stopSentinel] := by
  decide

/-- C8 amended: the single-file reader tags records `argus` (with the 20 ms
inter-line delay) when the basename contains `binetflow` or `argus`, tags
them `zeek` when it otherwise contains `log`, and leaves the `type` key
unset otherwise; every non-sentinel queue item is a record wrapping one
input line with exactly that inferred type. -/
theorem c8_type_inference_three_way (path : String) (content : List String) :
    ((containsSub "binetflow" (basenameOf path) ||
        containsSub "argus" (basenameOf path)) = true →
      singleFileTypeDelay path = (some "argus", 20)) ∧
    ((containsSub "binetflow" (basenameOf path) ||
        containsSub "argus" (basenameOf path)) = false →
      containsSub "log" (basenameOf path) = true →
      singleFileTypeDelay path = (some "zeek", 0)) ∧
    ((containsSub "binetflow" (basenameOf path) ||
        containsSub "argus" (basenameOf path)) = false →
      containsSub "log" (basenameOf path) = false →
      singleFileTypeDelay path = (none, 0)) ∧
    (∀ q ∈ (runSingleFile path content).1, q ≠ QItem.stopSentinel →
      ∃ s, q = QItem.record { type := (singleFileTypeDelay path).1,
                              data := RData.rawStr s }) := by
  refine ⟨?_, ?_, ?_, ?_⟩
  · intro h; simp [singleFileTypeDelay, h]
  · intro h1 h2; simp [singleFileTypeDelay, h1, h2]
  · intro h1 h2; simp [singleFileTypeDelay, h1, h2]
  · intro q hq hne
    simp only [runSingleFile] at hq
    rcases List.mem_append.1 hq with hq' | hq'
    · rcases foldl_putLine_mem (singleFileTypeDelay path).1 content [] q hq'
        with h' | h'
      · simp at h'
      · exact h'
    · rcases List.mem_singleton.1 hq' with rfl
      exact absurd rfl hne

/-- C8 amended, witness: the three basename classes at concrete names. -/
theorem c8_type_inference_three_way_witness :
    singleFileTypeDelay "x.binetflow" = (some "argus", 20) ∧
    singleFileTypeDelay "conn.log" = (some "zeek", 0) ∧
    singleFileTypeDelay "dir/flows.txt" = (none, 0) :=
  ⟨(c8_type_inference_three_way "x.binetflow" []).1 (by decide),
   (c8_type_inference_three_way "conn.log" []).2.1 (by decide) (by decide),
   (c8_type_inference_three_way "dir/flows.txt" []).2.2.1 (by decide)
     (by decide)⟩

/-! ### Claim C9 -/

/-- C9: in stdin mode, feeding the two lines `a` and `b` (with trailing
newlines) puts exactly the records `{type: stdin, data: "a\n"}`, then
`{type: stdin, data: "b\n"}`, then the literal `"stop"` on the profiler
queue, in that order; the queue holds immutable snapshots (the queue pickles
each object when it is put), so no later iteration modifies an enqueued
record. -/
theorem c9_stdin_passthrough :
    runStdin ["a\n", "b\n"] =
      [QItem.record { type := some "stdin", data := RData.rawStr "a\n" },
       QItem.record { type := some "stdin", data := RData.rawStr "b\n" },
       QItem.stopSentinel] := by
  decide

/-! ### Claim C10 -/

/-- C10 counterexample: a blank line (`"\n"`) read from a zeek file is not
dropped — it fails JSON parsing, does not start with `#`, and therefore
produces a buffered record whose timestamp is the string `"\n"`, contrary to
the claim that empty lines produce no record. -/
theorem c10_blank_line_produces_record :
    classifyLine "x" (ZLine.textLine "\n") =
      some ({ type := some "x", data := RData.rawStr "\n" }, PyVal.str "\n") := by
  decide

/-- C10 amended: every successful read of a line updates the quiescence
clock `last_updated_file_time` to the current instant before the line is
classified — in particular comment lines starting with `#`, which produce no
record, still count as activity; a read that returns no data (end of file,
`readline` returning the empty string) leaves the state, and hence the
clock, unchanged. -/
theorem c10_activity_clock_update :
    (∀ (env : String → List ZLine) (now : Nat) (st : TailState)
        (fn : String) (pos : Nat) (zl : ZLine),
        dget st.opened fn = some pos → dget st.cache fn = none →
        (env fn).get? pos = some zl →
        (fillOne env now st fn).lastUpd = now) ∧
    (∀ (fn raw : String) (cs : List Char), raw.toList = '#' :: cs →
        classifyLine fn (.textLine raw) = none) ∧
    (∀ (env : String → List ZLine) (now : Nat) (st : TailState)
        (fn : String) (pos : Nat),
        dget st.opened fn = some pos → dget st.cache fn = none →
        (env fn).get? pos = none →
        fillOne env now st fn = st) := by
  refine ⟨?_, ?_, ?_⟩
  · intro env now st fn pos zl hop hcache hget
    rw [List.get?_eq_getElem?] at hget
    cases hcl : classifyLine fn zl with
    | none => simp [fillOne, hop, readStep, hcache, hget, hcl]
    | some rts =>
        obtain ⟨r, ts⟩ := rts
        simp [fillOne, hop, readStep, hcache, hget, hcl]
  · intro fn raw cs hl
    have hl' : raw.data = '#' :: cs := hl
    simp [classifyLine, hl']
  · intro env now st fn pos hop hcache hget
    rw [List.get?_eq_getElem?] at hget
    simp [fillOne, hop, readStep, hcache, hget]

/-- C10 amended, witness: a comment line updates the clock to 9 while
producing no record, and an end-of-file read leaves the state unchanged. -/
theorem c10_activity_clock_update_witness :
    (fillOne (fun _ => [ZLine.textLine "#c\n"]) 9
        { opened := [("x", 0)], timeLast := [], cache := [], lastUpd := 5 }
        "x").lastUpd = 9 ∧
    classifyLine "x" (ZLine.textLine "#h\n") = none ∧
    fillOne (fun _ => []) 9
        { opened := [("x", 0)], timeLast := [], cache := [], lastUpd := 5 }
        "x" =
      { opened := [("x", 0)], timeLast := [], cache := [], lastUpd := 5 } :=
  ⟨c10_activity_clock_update.1 (fun _ => [ZLine.textLine "#c\n"]) 9
      { opened := [("x", 0)], timeLast := [], cache := [], lastUpd := 5 }
      "x" 0 (ZLine.textLine "#c\n") (by decide) (by decide) (by decide),
   c10_activity_clock_update.2.1 "x" "#h\n" ['h', '\n'] (by decide),
   c10_activity_clock_update.2.2 (fun _ => []) 9
      { opened := [("x", 0)], timeLast := [], cache := [], lastUpd := 5 }
      "x" 0 (by decide) (by decide) (by decide)⟩
